import Mathlib

/-
  Verification development for the instance-pricing resolution pipeline of the
  raycast-aws-tools-extension repository.

  Shallow embedding conventions:
  * JavaScript objects used as string-keyed dictionaries are modelled by
    `JsMap α := List (String × α)` with JS semantics: property assignment
    overwrites in place (keeping the original insertion position), and lookup
    returns the first matching key.
  * JS exceptions are modelled with `Except JsError`, where `JsError` carries
    the JS error's `name` and `message`.  A `try { … } catch { … }` block is
    modelled by running the `…Body` function (which returns `Except`) and
    mapping `Except.error` to the catch branch's result.
  * JS numbers are modelled as `ℚ`; `NaN` (as produced by `parseFloat` on a
    non-numeric string) is modelled as `none` in an `Option ℚ`.
  * `async`/`await` sequencing on the single JS thread is modelled by ordinary
    sequential evaluation; results of external awaited calls (AWS SDK sends,
    LocalStorage contents) are passed in explicitly as parameters.
-/

set_option autoImplicit false

/-- A JavaScript object used as a string-keyed dictionary. -/
abbrev JsMap (α : Type) : Type := List (String × α)

/-- The empty JS object `{}`. -/
def jsEmpty {α : Type} : JsMap α := []

/-- JS property assignment `obj[k] = v`: overwrites the first binding of `k`
in place (JS objects keep the original insertion position on overwrite), or
appends a new binding. -/
def jsSet {α : Type} : JsMap α → String → α → JsMap α
  | [], k, v => [(k, v)]
  | (k', v') :: t, k, v =>
    if k' = k then (k, v) :: t else (k', v') :: jsSet t k v

/-- JS property read `obj[k]`: the first binding of `k`, if any. -/
def jsGet {α : Type} : JsMap α → String → Option α
  | [], _ => none
  | (k', v') :: t, k => if k' = k then some v' else jsGet t k

theorem jsGet_jsSet {α : Type} (m : JsMap α) (k t : String) (v : α) :
    jsGet (jsSet m k v) t = if t = k then some v else jsGet m t := by
  induction m with
  | nil =>
    by_cases h : t = k
    · simp [jsSet, jsGet, h]
    · have h2 : ¬ k = t := fun hh => h hh.symm
      simp [jsSet, jsGet, h, h2]
  | cons hd tl ih =>
    obtain ⟨k', v'⟩ := hd
    by_cases hk : k' = k
    · subst hk
      by_cases ht : t = k'
      · simp [jsSet, jsGet, ht]
      · have h2 : ¬ k' = t := fun hh => ht hh.symm
        simp [jsSet, jsGet, ht, h2]
    · by_cases hkt : k' = t
      · have h2 : ¬ t = k := fun hh => hk (hkt.trans hh)
        simp [jsSet, jsGet, hk, hkt, h2]
      · simp [jsSet, jsGet, hk, hkt, ih]

theorem jsGet_jsSet_self {α : Type} (m : JsMap α) (k : String) (v : α) :
    jsGet (jsSet m k v) k = some v := by
  simp [jsGet_jsSet]

theorem jsGet_jsSet_ne {α : Type} (m : JsMap α) (k t : String) (v : α) (h : t ≠ k) :
    jsGet (jsSet m k v) t = jsGet m t := by
  simp [jsGet_jsSet, h]

/-- A thrown JavaScript error, with its `name` and `message` properties
(`new Error(msg)` has name `"Error"`; a property access on `undefined`
raises a `TypeError`; `JSON.parse` failure raises a `SyntaxError`). -/
structure JsError where
  name : String
  message : String
deriving DecidableEq

/-!  ## Cache Store — `src/shared/utils.ts`

`LocalStorage` holds strings; `getCachedData` reads a string, `JSON.parse`s
it and compares the envelope's `version` field.  We model the *parse result*
of each stored string by `StoredCell`:
  * `corrupt`   — a string `JSON.parse` rejects (parse throws `SyntaxError`);
  * `emptyStr`  — the empty string `""` (falsy, so the `if (cachedDataString)`
                  guard skips it);
  * `jsonNull`  — the string `"null"`: parses to `null`, and the subsequent
                  `cachedData.version` access throws a `TypeError`;
  * `nonEnvelope` — parses to a JSON value without a matching `version`
                  property (property access yields `undefined`, which fails
                  the strict equality test);
  * `envelope v d` — the well-formed envelope `{version: v, data: d}` written
                  by `setCachedData` (JSON round-trip of the plain-data
                  payload is the identity).
I/O failure of `LocalStorage.getItem` / `LocalStorage.setItem` (or of
`JSON.stringify`) is injected via the `readFails` / `writeFails` flags. -/

inductive StoredCell (α : Type) where
  | corrupt
  | emptyStr
  | jsonNull
  | nonEnvelope
  | envelope (version : Int) (data : α)
deriving DecidableEq

/-- The body of `getCachedData`'s `try` block (utils.ts lines 6–13): each
`Except.error` is a thrown JS exception. -/
def getCachedDataBody {α : Type} (readFails : Bool) (store : JsMap (StoredCell α))
    (key : String) (version : Int) : Except JsError (Option α) :=
  if readFails then
    Except.error ⟨"Error", "LocalStorage read failure"⟩
  else
    match jsGet store key with
    | none => Except.ok none
    | some StoredCell.emptyStr => Except.ok none
    | some StoredCell.corrupt =>
      Except.error ⟨"SyntaxError", "Unexpected token in JSON"⟩
    | some StoredCell.jsonNull =>
      Except.error ⟨"TypeError", "Cannot read properties of null"⟩
    | some StoredCell.nonEnvelope => Except.ok none
    | some (StoredCell.envelope v d) =>
      Except.ok (if v = version then some d else none)

/-- `getCachedData<T>(key, version)` from utils.ts: the `catch` block logs
and falls through, so any thrown error degrades to `null`. -/
def getCachedData {α : Type} (readFails : Bool) (store : JsMap (StoredCell α))
    (key : String) (version : Int) : Option α :=
  match getCachedDataBody readFails store key version with
  | Except.ok r => r
  | Except.error _ => none

/-- The body of `setCachedData`'s `try` block (utils.ts lines 21–26):
serializes `{version, data}` and stores it unconditionally. -/
def setCachedDataBody {α : Type} (writeFails : Bool) (store : JsMap (StoredCell α))
    (key : String) (version : Int) (data : α) :
    Except JsError (JsMap (StoredCell α)) :=
  if writeFails then
    Except.error ⟨"Error", "LocalStorage write failure"⟩
  else
    Except.ok (jsSet store key (StoredCell.envelope version data))

/-- `setCachedData<T>(key, version, data)` from utils.ts: the `catch` block
only logs, so a failing write is silently dropped (storage unchanged). -/
def setCachedData {α : Type} (writeFails : Bool) (store : JsMap (StoredCell α))
    (key : String) (version : Int) (data : α) : JsMap (StoredCell α) :=
  match setCachedDataBody writeFails store key version data with
  | Except.ok s => s
  | Except.error _ => store

/-!  ## `calculateCosts` — `src/shared/utils.ts` lines 32–37 -/

structure Costs where
  hourlyCost : ℚ
  dailyCost : ℚ
  monthlyCost : ℚ
deriving DecidableEq

/-- `calculateCosts(pricePerHour)` from utils.ts: `pricePerHour ?? 0`,
then `* 24` and `* 730`. -/
def calculateCosts (pricePerHour : Option ℚ) : Costs :=
  let hourlyCost := pricePerHour.getD 0
  { hourlyCost := hourlyCost
    dailyCost := hourlyCost * 24
    monthlyCost := hourlyCost * 730 }

/-- C2: writing a cache entry with version `V` then reading with `V' ≠ V`
yields absence, and reading back with `V` yields the original payload. -/
theorem c2_cache_version_law {α : Type} (store : JsMap (StoredCell α))
    (key : String) (v v' : Int) (payload : α) (h : v' ≠ v) :
    getCachedData false (setCachedData false store key v payload) key v' = none ∧
    getCachedData false (setCachedData false store key v payload) key v = some payload := by
  have hset : setCachedData false store key v payload
      = jsSet store key (StoredCell.envelope v payload) := rfl
  constructor
  · have hne : ¬ v = v' := fun hv => h hv.symm
    simp [hset, getCachedData, getCachedDataBody, jsGet_jsSet_self, hne]
  · simp [hset, getCachedData, getCachedDataBody, jsGet_jsSet_self]

theorem c2_cache_version_law_witness :
    (2 : Int) ≠ 1 ∧
    (getCachedData false (setCachedData false ([] : JsMap (StoredCell Nat)) "k" 1 7) "k" 2 = none ∧
     getCachedData false (setCachedData false ([] : JsMap (StoredCell Nat)) "k" 1 7) "k" 1 = some 7) :=
  ⟨by decide, c2_cache_version_law [] "k" 1 2 7 (by decide)⟩

/-- C8: the Cache Store never throws to its caller.  An I/O failure or an
unparseable / null / non-envelope stored string degrades a read to `none`;
a non-`none` read can only come from a stored well-formed envelope whose
version matches the requested one; and a failing write is silently dropped,
leaving the storage unchanged. -/
theorem c8_cache_store_never_throws {α : Type} (store : JsMap (StoredCell α))
    (key : String) (version : Int) :
    getCachedData true store key version = none ∧
    (jsGet store key = some StoredCell.corrupt →
      getCachedData false store key version = none) ∧
    (jsGet store key = some StoredCell.jsonNull →
      getCachedData false store key version = none) ∧
    (∀ d : α, getCachedData false store key version = some d →
      jsGet store key = some (StoredCell.envelope version d)) ∧
    (∀ (v : Int) (d : α), setCachedData true store key v d = store) := by
  refine ⟨rfl, ?_, ?_, ?_, fun v d => rfl⟩
  · intro h; simp [getCachedData, getCachedDataBody, h]
  · intro h; simp [getCachedData, getCachedDataBody, h]
  · intro d h
    unfold getCachedData getCachedDataBody at h
    match hc : jsGet store key with
    | none => simp [hc] at h
    | some StoredCell.emptyStr => simp [hc] at h
    | some StoredCell.corrupt => simp [hc] at h
    | some StoredCell.jsonNull => simp [hc] at h
    | some StoredCell.nonEnvelope => simp [hc] at h
    | some (StoredCell.envelope v d') =>
      simp only [hc] at h
      by_cases hv : v = version
      · subst hv
        simp only [if_pos rfl] at h
        injection h with h
        rw [h]
      · simp [hv] at h

theorem c8_cache_store_never_throws_witness :
    getCachedData true [("k", (StoredCell.corrupt : StoredCell Nat))] "k" 1 = none ∧
    getCachedData false [("k", (StoredCell.corrupt : StoredCell Nat))] "k" 1 = none ∧
    setCachedData true ([] : JsMap (StoredCell Nat)) "k" 1 5 = [] :=
  ⟨(c8_cache_store_never_throws [("k", StoredCell.corrupt)] "k" 1).1,
   (c8_cache_store_never_throws [("k", StoredCell.corrupt)] "k" 1).2.1 (by decide),
   (c8_cache_store_never_throws ([] : JsMap (StoredCell Nat)) "k" 1).2.2.2.2 1 5⟩

/-- C10: `calculateCosts p` returns `hourlyCost = p` for a non-null price and
`0` for a null price, with `dailyCost` and `monthlyCost` always the hourly
cost times 24 and 730 respectively. -/
theorem c10_calculate_costs (p : Option ℚ) :
    (calculateCosts p).hourlyCost = (match p with | some x => x | none => 0) ∧
    (calculateCosts p).dailyCost = (calculateCosts p).hourlyCost * 24 ∧
    (calculateCosts p).monthlyCost = (calculateCosts p).hourlyCost * 730 := by
  cases p <;> simp [calculateCosts]

/-!  ## Catalog Client — `fetchInstanceData`, awsClient.ts lines 87–158

Each element of `page.PriceList` is a JSON string.  We model the shapes the
loop body actually dereferences:

  `priceJSON.product`                       — may be absent (`undefined`);
  `product.attributes`                      — may be absent; the following
      `attributes.instanceType` access then throws a `TypeError`;
  `attributes.instanceType`                 — absent or `""` is falsy and
      `continue`s;
  `priceJSON.terms?.OnDemand`               — optional chaining: absent
      `terms` or absent `OnDemand` both give `undefined` (`none` here);
      present `OnDemand` is an object whose values are taken in order
      (`Object.values(...)[0]`), modelled as a list;
  `term.priceDimensions`                    — absent makes
      `Object.values(undefined)` throw; an empty object makes the subsequent
      `priceDimension.pricePerUnit` access throw;
  `priceDimension.pricePerUnit`             — absent makes the `.USD` access
      throw;
  `pricePerUnit.USD`                        — absent gives
      `parseFloat(undefined) = NaN`, modelled as `none`.

A `PriceList` entry whose string `JSON.parse` rejects (`PriceListItem.notJson`)
throws a `SyntaxError` out of the loop. -/

structure PricePerUnit where
  USD : Option String
deriving DecidableEq

structure PriceDimension where
  pricePerUnit : Option PricePerUnit
deriving DecidableEq

/-- One value of the `terms.OnDemand` object; `priceDimensions` holds the
values of the nested `priceDimensions` object in order. -/
structure OnDemandTerm where
  priceDimensions : Option (List PriceDimension)
deriving DecidableEq

/-- `product.attributes`: the two fields the pipeline reads by name, plus the
remaining attribute properties (spread into the record by `...attributes`). -/
structure ProductAttributes where
  instanceType : Option String
  usagetype : Option String
  other : List (String × String)
deriving DecidableEq

structure RawProduct where
  attributes : Option ProductAttributes
deriving DecidableEq

/-- The parse of one `PriceList` JSON string. -/
structure RawPriceRecord where
  product : Option RawProduct
  terms_OnDemand : Option (List OnDemandTerm)
deriving DecidableEq

inductive PriceListItem where
  | notJson
  | json (r : RawPriceRecord)
deriving DecidableEq

/-- Split a character list on a separator (the groups between occurrences
of `sep`, like `String.prototype.split`). -/
def splitOnChar (sep : Char) : List Char → List (List Char)
  | [] => [[]]
  | c :: rest =>
    let r := splitOnChar sep rest
    if c = sep then [] :: r
    else
      match r with
      | [] => [[c]]
      | g :: gs => (c :: g) :: gs

def digitsValGo (acc : Nat) : List Char → Option Nat
  | [] => some acc
  | c :: rest =>
    if c.isDigit then digitsValGo (acc * 10 + (c.toNat - 48)) rest else none

/-- The numeric value of a non-empty string of decimal digits. -/
def digitsVal : List Char → Option Nat
  | [] => none
  | c :: rest => digitsValGo 0 (c :: rest)

/-- JS `parseFloat` restricted to the plain decimal strings the pricing
catalog emits (`"0.26"`); a missing or non-numeric string gives `NaN`,
modelled as `none`. -/
def parseFloatJs (s : Option String) : Option ℚ :=
  match s with
  | none => none
  | some str =>
    match splitOnChar '.' str.data with
    | [a] => (digitsVal a).map (fun n => (n : ℚ))
    | [a, b] =>
      match digitsVal a, digitsVal b with
      | some n, some f => some ((n : ℚ) + (f : ℚ) / (10 : ℚ) ^ b.length)
      | _, _ => none
    | _ => none

/-- The record stored in the result map:
`{ pricePerHour: …, ...attributes }`. -/
structure InstanceRecord where
  pricePerHour : Option ℚ
  attributes : ProductAttributes
deriving DecidableEq

/-- The body of the `for (const priceItem of page.PriceList)` loop
(awsClient.ts lines 122–143) for one item:
`Except.error` models a thrown exception (failing the whole fetch),
`Except.ok none` models `continue`/no insertion, and
`Except.ok (some (k, rec))` models `instanceData[k] = rec`. -/
def processPriceItem (it : PriceListItem) : Except JsError (Option (String × InstanceRecord)) :=
  match it with
  | PriceListItem.notJson =>
    Except.error ⟨"SyntaxError", "Unexpected token in JSON"⟩
  | PriceListItem.json r =>
    match r.product with
    | none => Except.error ⟨"TypeError", "Cannot read properties of undefined"⟩
    | some product =>
      match product.attributes with
      | none => Except.error ⟨"TypeError", "Cannot read properties of undefined"⟩
      | some attributes =>
        match attributes.instanceType with
        | none => Except.ok none
        | some instanceType =>
          if instanceType = "" then Except.ok none
          else
            match r.terms_OnDemand with
            | none => Except.ok none
            | some [] => Except.error ⟨"TypeError", "Cannot read properties of undefined"⟩
            | some (term :: _) =>
              match term.priceDimensions with
              | none => Except.error ⟨"TypeError", "Cannot read properties of undefined"⟩
              | some [] => Except.error ⟨"TypeError", "Cannot read properties of undefined"⟩
              | some (priceDimension :: _) =>
                match priceDimension.pricePerUnit with
                | none => Except.error ⟨"TypeError", "Cannot read properties of undefined"⟩
                | some pricePerUnit =>
                  Except.ok (some (instanceType,
                    { pricePerHour := parseFloatJs pricePerUnit.USD
                      attributes := attributes }))

/-- Sequential processing of one page's `PriceList`. -/
def processPriceList (items : List PriceListItem) (acc : JsMap InstanceRecord) :
    Except JsError (JsMap InstanceRecord) :=
  match items with
  | [] => Except.ok acc
  | it :: rest =>
    match processPriceItem it with
    | Except.error e => Except.error e
    | Except.ok none => processPriceList rest acc
    | Except.ok (some (k, v)) => processPriceList rest (jsSet acc k v)

/-- The `for await (const page of paginator)` loop, starting from page index
`pageIdx` with accumulator `acc`.  At each page boundary the cancel signal is
checked first: if `signal.aborted`, the loop throws `new Error("Fetch
aborted")` — a plain `Error` (name `"Error"`), not an `AbortError`. -/
def fetchInstanceDataGo (signalAborted : Nat → Bool) (pageIdx : Nat)
    (pages : List (List PriceListItem)) (acc : JsMap InstanceRecord) :
    Except JsError (JsMap InstanceRecord) :=
  match pages with
  | [] => Except.ok acc
  | page :: rest =>
    if signalAborted pageIdx then
      Except.error ⟨"Error", "Fetch aborted"⟩
    else
      match processPriceList page acc with
      | Except.error e => Except.error e
      | Except.ok acc' => fetchInstanceDataGo signalAborted (pageIdx + 1) rest acc'

/-- `fetchInstanceData(region, serviceCode, filters, setProgress, signal)`
from awsClient.ts: paginates, checks the cancel signal at each page boundary,
and accumulates records under the key `attributes.instanceType`.  The pages
are the pagination responses; `signalAborted i` is the state of
`signal.aborted` when page `i` is received.  The progress callback only
reports counts and is elided. -/
def fetchInstanceData (signalAborted : Nat → Bool)
    (pages : List (List PriceListItem)) : Except JsError (JsMap InstanceRecord) :=
  fetchInstanceDataGo signalAborted 0 pages jsEmpty

/-- A cancel signal that never indicates cancellation. -/
def noAbort : Nat → Bool := fun _ => false

/-- Processing a page never throws past an item whose processing is a skip:
an item with `processPriceItem it = ok none` can be removed from the page
without changing the result. -/
theorem processPriceList_skip (it : PriceListItem)
    (h : processPriceItem it = Except.ok none) (pre post : List PriceListItem)
    (acc : JsMap InstanceRecord) :
    processPriceList (pre ++ it :: post) acc = processPriceList (pre ++ post) acc := by
  induction pre generalizing acc with
  | nil => simp [processPriceList, h]
  | cons p pre ih =>
    simp only [List.cons_append, processPriceList]
    match hp : processPriceItem p with
    | Except.error e => rfl
    | Except.ok none => exact ih acc
    | Except.ok (some (k, v)) => exact ih (jsSet acc k v)

/-- A key is present after processing a page iff it was already present in
the accumulator or some item of the page successfully inserts it. -/
theorem processPriceList_mem (items : List PriceListItem) (acc m : JsMap InstanceRecord)
    (h : processPriceList items acc = Except.ok m) (t : String) :
    jsGet m t ≠ none ↔
      (jsGet acc t ≠ none ∨
        ∃ it ∈ items, ∃ rec, processPriceItem it = Except.ok (some (t, rec))) := by
  induction items generalizing acc with
  | nil =>
    simp only [processPriceList] at h
    injection h with h
    subst h
    simp
  | cons it rest ih =>
    simp only [processPriceList] at h
    match hit : processPriceItem it with
    | Except.error e => rw [hit] at h; exact absurd h (by simp)
    | Except.ok none =>
      rw [hit] at h
      rw [ih acc h]
      constructor
      · rintro (hl | ⟨it', hmem, rec, hrec⟩)
        · exact Or.inl hl
        · exact Or.inr ⟨it', List.mem_cons_of_mem _ hmem, rec, hrec⟩
      · rintro (hl | ⟨it', hmem, rec, hrec⟩)
        · exact Or.inl hl
        · rcases List.mem_cons.mp hmem with heq | hmem'
          · subst heq; rw [hit] at hrec; exact absurd hrec (by simp)
          · exact Or.inr ⟨it', hmem', rec, hrec⟩
    | Except.ok (some (k, v)) =>
      rw [hit] at h
      rw [ih (jsSet acc k v) h]
      by_cases htk : t = k
      · subst htk
        constructor
        · intro _
          exact Or.inr ⟨it, List.mem_cons_self _ _, v, hit⟩
        · intro _
          left
          rw [jsGet_jsSet_self]
          simp
      · have hset : jsGet (jsSet acc k v) t = jsGet acc t := jsGet_jsSet_ne acc k t v htk
        rw [hset]
        constructor
        · rintro (hl | ⟨it', hmem, rec, hrec⟩)
          · exact Or.inl hl
          · exact Or.inr ⟨it', List.mem_cons_of_mem _ hmem, rec, hrec⟩
        · rintro (hl | ⟨it', hmem, rec, hrec⟩)
          · exact Or.inl hl
          · rcases List.mem_cons.mp hmem with heq | hmem'
            · subst heq
              rw [hit] at hrec
              injection hrec with hrec
              injection hrec with hrec
              have hkt2 : k = t := congrArg Prod.fst hrec
              exact absurd hkt2.symm htk
            · exact Or.inr ⟨it', hmem', rec, hrec⟩

/-- Page-level version of `processPriceList_mem` for the pagination loop. -/
theorem fetchInstanceDataGo_mem (signalAborted : Nat → Bool)
    (pages : List (List PriceListItem)) :
    ∀ (i : Nat) (acc m : JsMap InstanceRecord),
      fetchInstanceDataGo signalAborted i pages acc = Except.ok m →
      ∀ t, jsGet m t ≠ none ↔
        (jsGet acc t ≠ none ∨
          ∃ page ∈ pages, ∃ it ∈ page, ∃ rec,
            processPriceItem it = Except.ok (some (t, rec))) := by
  induction pages with
  | nil =>
    intro i acc m h t
    simp only [fetchInstanceDataGo] at h
    injection h with h
    subst h
    simp
  | cons page rest ih =>
    intro i acc m h t
    simp only [fetchInstanceDataGo] at h
    by_cases hab : signalAborted i
    · rw [if_pos hab] at h; exact absurd h (by simp)
    · rw [if_neg hab] at h
      match hpl : processPriceList page acc with
      | Except.error e => rw [hpl] at h; exact absurd h (by simp)
      | Except.ok acc' =>
        rw [hpl] at h
        rw [ih (i + 1) acc' m h t, processPriceList_mem page acc acc' hpl t]
        constructor
        · rintro ((hl | ⟨it, hmem, rec, hrec⟩) | ⟨pg, hpg, it, hmem, rec, hrec⟩)
          · exact Or.inl hl
          · exact Or.inr ⟨page, List.mem_cons_self _ _, it, hmem, rec, hrec⟩
          · exact Or.inr ⟨pg, List.mem_cons_of_mem _ hpg, it, hmem, rec, hrec⟩
        · rintro (hl | ⟨pg, hpg, it, hmem, rec, hrec⟩)
          · exact Or.inl (Or.inl hl)
          · rcases List.mem_cons.mp hpg with heq | hpg'
            · subst heq; exact Or.inl (Or.inr ⟨it, hmem, rec, hrec⟩)
            · exact Or.inr ⟨pg, hpg', it, hmem, rec, hrec⟩

/-- Top-level membership characterization for `fetchInstanceData`. -/
theorem fetchInstanceData_mem (signalAborted : Nat → Bool)
    (pages : List (List PriceListItem)) (m : JsMap InstanceRecord)
    (h : fetchInstanceData signalAborted pages = Except.ok m) (t : String) :
    jsGet m t ≠ none ↔
      ∃ page ∈ pages, ∃ it ∈ page, ∃ rec,
        processPriceItem it = Except.ok (some (t, rec)) := by
  have := fetchInstanceDataGo_mem signalAborted pages 0 jsEmpty m h t
  simpa [jsEmpty, jsGet] using this

/-- A fully well-formed catalog record, as the pricing API returns it. -/
def mkValidItem (ty usg price : String) : PriceListItem :=
  PriceListItem.json
    { product := some
        { attributes := some
            { instanceType := some ty
              usagetype := some usg
              other := [] } }
      terms_OnDemand := some
        [ { priceDimensions := some
              [ { pricePerUnit := some { USD := some price } } ] } ] }

/-- Standard-storage variant of a `db.r6g.large` record (page 1). -/
def c1ItemStd : PriceListItem :=
  mkValidItem "db.r6g.large" "InstanceUsage:db.r6g.large" "0.26"

/-- I/O-optimized variant of the same instance type (page 2) — the spec's
`usageType` disambiguation case. -/
def c1ItemIOOpt : PriceListItem :=
  mkValidItem "db.r6g.large" "InstanceUsageIOOptimized:db.r6g.large" "0.30"

/-- C1 (divergence witness): `fetchInstanceData` keys the result map by the
bare `attributes.instanceType`, not by the composite
`instanceType|usageType`.  Two valid records of the same instance type with
different usage types collapse to a single entry (the later record
overwrites the earlier one, so the map is not the union of the valid
records), and no composite key is ever present — while the claim requires
two entries stored under the composite keys. -/
theorem c1_bare_instance_type_key :
    (fetchInstanceData noAbort [[c1ItemStd], [c1ItemIOOpt]]).toOption.map
        (fun m => m.map Prod.fst) = some ["db.r6g.large"] ∧
    (fetchInstanceData noAbort [[c1ItemStd], [c1ItemIOOpt]]).toOption.map
        (fun m => jsGet m "db.r6g.large|InstanceUsage:db.r6g.large")
      = some none ∧
    (fetchInstanceData noAbort [[c1ItemStd], [c1ItemIOOpt]]).toOption.map
        (fun m => jsGet m "db.r6g.large|InstanceUsageIOOptimized:db.r6g.large")
      = some none ∧
    (fetchInstanceData noAbort [[c1ItemStd], [c1ItemIOOpt]]).toOption.map
        (fun m => (jsGet m "db.r6g.large").map (fun r => r.attributes.usagetype))
      = some (some (some "InstanceUsageIOOptimized:db.r6g.large")) := by
  refine ⟨by decide, by decide, by decide, by decide⟩

/-- A record whose `product.attributes` is missing: the loop body's
`attributes.instanceType` access throws a `TypeError`. -/
def c5ItemMissingAttrs : PriceListItem :=
  PriceListItem.json { product := some { attributes := none }, terms_OnDemand := none }

/-- A well-formed record appearing after the malformed one on the same page. -/
def c5ItemValid : PriceListItem :=
  mkValidItem "m5.large" "BoxUsage:m5.large" "0.096"

/-- C5 (counterexample): a record with missing `attributes` is NOT skipped
per-record — processing it throws a `TypeError`, the remaining records of
the page are not processed, and the whole fetch fails.  (Only a missing or
empty `instanceType` and a missing `terms.OnDemand` are skipped; see the
amended theorem.) -/
theorem c5_missing_attributes_throws :
    fetchInstanceData noAbort [[c5ItemMissingAttrs, c5ItemValid]]
      = Except.error ⟨"TypeError", "Cannot read properties of undefined"⟩ := by
  rfl

/-- The malformed-record shapes the loop actually skips per-record: a
missing or empty (falsy) `attributes.instanceType`, or a missing
`terms.OnDemand` (including a missing `terms`). -/
def skippableRecord (r : RawPriceRecord) : Prop :=
  (∃ p a, r.product = some p ∧ p.attributes = some a ∧
    (a.instanceType = none ∨ a.instanceType = some "")) ∨
  (∃ p a t, r.product = some p ∧ p.attributes = some a ∧
    a.instanceType = some t ∧ t ≠ "" ∧ r.terms_OnDemand = none)

/-- C5 (amended): a record with a missing/empty `instanceType` or a missing
on-demand term is skipped per-record — processing it does not throw and
contributes nothing, and removing it from its page leaves the processing of
the remaining records (and the whole fetch) unchanged. -/
theorem c5_skippable_records_amended (r : RawPriceRecord) (h : skippableRecord r) :
    processPriceItem (PriceListItem.json r) = Except.ok none ∧
    ∀ (pre post : List PriceListItem) (acc : JsMap InstanceRecord),
      processPriceList (pre ++ PriceListItem.json r :: post) acc
        = processPriceList (pre ++ post) acc := by
  have hskip : processPriceItem (PriceListItem.json r) = Except.ok none := by
    rcases h with ⟨p, a, hp, ha, hit⟩ | ⟨p, a, t, hp, ha, hit, hne, hod⟩
    · rcases hit with hnone | hempty
      · simp [processPriceItem, hp, ha, hnone]
      · simp [processPriceItem, hp, ha, hempty]
    · simp [processPriceItem, hp, ha, hit, hne, hod]
  exact ⟨hskip, fun pre post acc =>
    processPriceList_skip (PriceListItem.json r) hskip pre post acc⟩

/-- A record lacking `terms.OnDemand` (the amended C5's second shape). -/
def c5RecordNoOnDemand : RawPriceRecord :=
  { product := some
      { attributes := some
          { instanceType := some "db.r6g.xlarge"
            usagetype := some "InstanceUsage:db.r6g.xlarge"
            other := [] } }
    terms_OnDemand := none }

theorem c5_skippable_records_witness :
    skippableRecord c5RecordNoOnDemand ∧
    processPriceItem (PriceListItem.json c5RecordNoOnDemand) = Except.ok none ∧
    processPriceList
        ([c5ItemValid] ++ PriceListItem.json c5RecordNoOnDemand :: []) jsEmpty
      = processPriceList ([c5ItemValid] ++ []) jsEmpty :=
  ⟨Or.inr ⟨_, _, "db.r6g.xlarge", rfl, rfl, rfl, by decide, rfl⟩,
   (c5_skippable_records_amended c5RecordNoOnDemand
     (Or.inr ⟨_, _, "db.r6g.xlarge", rfl, rfl, rfl, by decide, rfl⟩)).1,
   (c5_skippable_records_amended c5RecordNoOnDemand
     (Or.inr ⟨_, _, "db.r6g.xlarge", rfl, rfl, rfl, by decide, rfl⟩)).2
     [c5ItemValid] [] jsEmpty⟩

/-- C6: if the fetch returns a map, then (i) a record lacking
`terms.OnDemand` never produces an insertion (it is skipped, not inserted
with a defaulted price), (ii) every key of the map was inserted by some
record of some page, and (iii) every record that produces an insertion —
in particular any valid record sharing a page with OnDemand-less records —
has its key present in the final map. -/
theorem c6_no_ondemand_absent (signalAborted : Nat → Bool)
    (pages : List (List PriceListItem)) (m : JsMap InstanceRecord)
    (h : fetchInstanceData signalAborted pages = Except.ok m) :
    (∀ r : RawPriceRecord, r.terms_OnDemand = none →
      ∀ k rec, processPriceItem (PriceListItem.json r) ≠ Except.ok (some (k, rec))) ∧
    (∀ t, jsGet m t ≠ none →
      ∃ page ∈ pages, ∃ it ∈ page, ∃ rec,
        processPriceItem it = Except.ok (some (t, rec))) ∧
    (∀ page ∈ pages, ∀ it ∈ page, ∀ k rec,
      processPriceItem it = Except.ok (some (k, rec)) → jsGet m k ≠ none) := by
  refine ⟨?_, ?_, ?_⟩
  · intro r hod k rec
    match hp : r.product with
    | none => simp [processPriceItem, hp]
    | some p =>
      match ha : p.attributes with
      | none => simp [processPriceItem, hp, ha]
      | some a =>
        match hit : a.instanceType with
        | none => simp [processPriceItem, hp, ha, hit]
        | some t =>
          by_cases hte : t = ""
          · simp [processPriceItem, hp, ha, hit, hte]
          · simp [processPriceItem, hp, ha, hit, hte, hod]
  · intro t ht
    exact (fetchInstanceData_mem signalAborted pages m h t).mp ht
  · intro page hpage it hit k rec hrec
    exact (fetchInstanceData_mem signalAborted pages m h k).mpr
      ⟨page, hpage, it, hit, rec, hrec⟩

/-!  ## Fetch Orchestrator — `useAWSInstanceData`, `src/shared/hooks.ts`

The effect body `fetchData` (hooks.ts lines 50–95):
  1. builds `cacheKeyWithRegion = cacheKey + "_" + region`,
  2. reads the cache with schema version `1`,
  3. on a hit sets `instanceData` to the cached payload (no fetch, no write),
  4. on a miss awaits `fetchInstanceData`, applies the optional
     `dataProcessor`, sets `instanceData` and writes the cache with
     version `1`,
  5. in `catch`: if the thrown error's `name` is exactly `"AbortError"` it
     returns silently; otherwise it sets the `error` state and shows a
     failure toast.
The awaited fetch's outcome is passed in as `fetchOutcome` (it is only
reached on a cache miss); `store` is the LocalStorage contents, whose I/O is
assumed to succeed at this level (cache I/O failure is covered by the Cache
Store theorems). -/

structure SessionResult (α : Type) where
  /-- The value passed to `setInstanceData`, if any. -/
  instanceData : Option (JsMap α)
  /-- The value passed to `setError`, if any. -/
  error : Option String
  /-- Whether a failure toast was shown. -/
  toastShown : Bool
  /-- Whether `fetchInstanceData` (the Catalog Client) was invoked. -/
  catalogInvoked : Bool
  /-- `isLoading` after the `finally` block. -/
  isLoading : Bool
  /-- The LocalStorage contents after the session. -/
  store : JsMap (StoredCell (JsMap α))

/-- One run of the effect body `fetchData` of `useAWSInstanceData`. -/
def fetchData {α : Type} (store : JsMap (StoredCell (JsMap α)))
    (cacheKey region : String) (fetchOutcome : Except JsError (JsMap α))
    (dataProcessor : Option (JsMap α → JsMap α)) : SessionResult α :=
  match getCachedData false store (cacheKey ++ "_" ++ region) 1 with
  | some cachedData =>
    { instanceData := some cachedData
      error := none
      toastShown := false
      catalogInvoked := false
      isLoading := false
      store := store }
  | none =>
    match fetchOutcome with
    | Except.ok rawData =>
      let processedData := match dataProcessor with
        | some f => f rawData
        | none => rawData
      { instanceData := some processedData
        error := none
        toastShown := false
        catalogInvoked := true
        isLoading := false
        store := setCachedData false store (cacheKey ++ "_" ++ region) 1 processedData }
    | Except.error e =>
      if e.name = "AbortError" then
        { instanceData := none
          error := none
          toastShown := false
          catalogInvoked := true
          isLoading := false
          store := store }
      else
        { instanceData := none
          error := some e.message
          toastShown := true
          catalogInvoked := true
          isLoading := false
          store := store }

/-- A cancel signal that is already aborted at the first page boundary. -/
def abortedFromStart : Nat → Bool := fun _ => true

/-- C3 (divergence witness): when the cancel signal indicates cancellation
at a page boundary, `fetchInstanceData` throws `new Error("Fetch aborted")`,
whose `name` is `"Error"` — not an `AbortError`, so it is not
distinguishable from a data error.  The orchestrator's
`error.name === "AbortError"` guard therefore does not match: it sets the
error state and shows a failure toast, surfacing the user-initiated
cancellation as an error. -/
theorem c3_cancellation_surfaced_as_error :
    fetchInstanceData abortedFromStart [[c1ItemStd]]
      = Except.error ⟨"Error", "Fetch aborted"⟩ ∧
    (fetchData jsEmpty "ec2_instance_data" "us-east-1"
        (fetchInstanceData abortedFromStart [[c1ItemStd]]) none).error
      = some "Fetch aborted" ∧
    (fetchData jsEmpty "ec2_instance_data" "us-east-1"
        (fetchInstanceData abortedFromStart [[c1ItemStd]]) none).toastShown
      = true := by
  refine ⟨rfl, rfl, rfl⟩

/-- C4 (divergence witness): cancelling before the first page resolves
indeed causes no cache write — the LocalStorage contents are unchanged and
no data is set — but the session does not end in a silent Cancelled
outcome: because the abort error's `name` is `"Error"` rather than
`"AbortError"`, the session ends in the error (`Failed`) path with the
error state set and a failure toast shown. -/
theorem c4_cancel_no_cache_write :
    (fetchData jsEmpty "rds_postgresql_data" "eu-west-2"
        (fetchInstanceData abortedFromStart [[c1ItemIOOpt]]) none).store
      = jsEmpty ∧
    (fetchData jsEmpty "rds_postgresql_data" "eu-west-2"
        (fetchInstanceData abortedFromStart [[c1ItemIOOpt]]) none).instanceData
      = none ∧
    (fetchData jsEmpty "rds_postgresql_data" "eu-west-2"
        (fetchInstanceData abortedFromStart [[c1ItemIOOpt]]) none).error
      = some "Fetch aborted" ∧
    (fetchData jsEmpty "rds_postgresql_data" "eu-west-2"
        (fetchInstanceData abortedFromStart [[c1ItemIOOpt]]) none).toastShown
      = true := by
  refine ⟨rfl, rfl, rfl, rfl⟩

/-- C9: with the cache entry for `(region, selection)` populated at the
expected schema version, a run of the orchestrator serves the cached data
without invoking the Catalog Client and leaves the storage unchanged, and a
second run with the same inputs returns data identical to the first run's
result, again without invoking the Catalog Client. -/
theorem c9_orchestrator_idempotent {α : Type}
    (store : JsMap (StoredCell (JsMap α))) (cacheKey region : String)
    (d : JsMap α) (fo fo' : Except JsError (JsMap α))
    (proc proc' : Option (JsMap α → JsMap α))
    (h : getCachedData false store (cacheKey ++ "_" ++ region) 1 = some d) :
    (fetchData store cacheKey region fo proc).instanceData = some d ∧
    (fetchData store cacheKey region fo proc).catalogInvoked = false ∧
    (fetchData store cacheKey region fo proc).store = store ∧
    (fetchData (fetchData store cacheKey region fo proc).store
        cacheKey region fo' proc').instanceData
      = (fetchData store cacheKey region fo proc).instanceData ∧
    (fetchData (fetchData store cacheKey region fo proc).store
        cacheKey region fo' proc').catalogInvoked = false := by
  have h1 : fetchData store cacheKey region fo proc =
      { instanceData := some d
        error := none
        toastShown := false
        catalogInvoked := false
        isLoading := false
        store := store } := by
    unfold fetchData
    rw [h]
  rw [h1]
  have h2 : fetchData store cacheKey region fo' proc' =
      { instanceData := some d
        error := none
        toastShown := false
        catalogInvoked := false
        isLoading := false
        store := store } := by
    unfold fetchData
    rw [h]
  constructor
  · rfl
  constructor
  · rfl
  constructor
  · rfl
  constructor
  · rw [h2]
  · rw [h2]

/-- The payload used by the C9 witness. -/
def c9Payload : JsMap String := [("m5.large", "cached")]

theorem c9_orchestrator_idempotent_witness :
    getCachedData false
        [("ec2_instance_data_us-east-1", StoredCell.envelope 1 c9Payload)]
        ("ec2_instance_data" ++ "_" ++ "us-east-1") 1 = some c9Payload ∧
    (fetchData [("ec2_instance_data_us-east-1", StoredCell.envelope 1 c9Payload)]
        "ec2_instance_data" "us-east-1"
        (Except.error ⟨"Error", "unused"⟩) none).instanceData = some c9Payload ∧
    (fetchData [("ec2_instance_data_us-east-1", StoredCell.envelope 1 c9Payload)]
        "ec2_instance_data" "us-east-1"
        (Except.error ⟨"Error", "unused"⟩) none).catalogInvoked = false :=
  ⟨by decide,
   (c9_orchestrator_idempotent
     [("ec2_instance_data_us-east-1", StoredCell.envelope 1 c9Payload)]
     "ec2_instance_data" "us-east-1" c9Payload
     (Except.error ⟨"Error", "unused"⟩) (Except.error ⟨"Error", "unused"⟩)
     none none (by decide)).1,
   (c9_orchestrator_idempotent
     [("ec2_instance_data_us-east-1", StoredCell.envelope 1 c9Payload)]
     "ec2_instance_data" "us-east-1" c9Payload
     (Except.error ⟨"Error", "unused"⟩) (Except.error ⟨"Error", "unused"⟩)
     none none (by decide)).2.1⟩

/-!  ## Capability Enricher — `fetchBaselineBandwidth`, awsClient.ts
(the batched revision, lines 43–105)

`DescribeInstanceTypes` responses are modelled down to the fields the code
dereferences (`InstanceTypes`, `InstanceType`,
`NetworkInfo?.NetworkCards?.[0]?.BaselineBandwidthInGbps`).  The function:
  1. short-circuits on a cache hit (`cached` is the parsed LocalStorage
     value under `baseline_bandwidth_data`; the final cache write of the
     same returned map is elided);
  2. strips the first occurrence of `"cache."` then of `"db."` from each
     node type (JS `String.replace` with a string pattern replaces only the
     first occurrence);
  3. keeps the types for which a singleton `DescribeInstanceTypes` probe
     succeeds;
  4. chunks them (batches of 100) and issues all batches concurrently; each
     batch's `catch` only logs, so a failing batch contributes nothing and
     does not abort its siblings.  All writes are keyed, so the merged map
     does not depend on completion order; the model merges in batch order. -/

structure NetworkCard where
  BaselineBandwidthInGbps : Option ℚ
deriving DecidableEq

structure NetworkInfoShape where
  NetworkCards : Option (List NetworkCard)
deriving DecidableEq

structure InstanceTypeInfo where
  InstanceType : Option String
  NetworkInfo : Option NetworkInfoShape
deriving DecidableEq

structure DescribeResponse where
  InstanceTypes : Option (List InstanceTypeInfo)
deriving DecidableEq

/-- Strip `pat` from the head of `l` if it is a prefix, returning the rest. -/
def dropPrefixChars : List Char → List Char → Option (List Char)
  | l, [] => some l
  | [], _ :: _ => none
  | c :: l, p :: ps => if c = p then dropPrefixChars l ps else none

/-- Remove the first occurrence of `pat` anywhere in the list
(JS `String.prototype.replace(pat, "")` with a string pattern). -/
def replaceFirstChars (pat : List Char) : List Char → List Char
  | [] => []
  | c :: t =>
    match dropPrefixChars (c :: t) pat with
    | some rest => rest
    | none => c :: replaceFirstChars pat t

def replaceFirst (s pat : String) : String :=
  String.mk (replaceFirstChars pat.data s.data)

/-- `chunkArray(array, chunkSize)` from awsClient.ts, fuelled by the array
length (each step consumes at least one element for a positive chunk size,
the only way the code calls it). -/
def chunkArrayFuel {α : Type} (chunkSize : Nat) : Nat → List α → List (List α)
  | _, [] => []
  | 0, _ :: _ => []
  | fuel + 1, a :: rest =>
    (a :: rest).take chunkSize :: chunkArrayFuel chunkSize fuel ((a :: rest).drop chunkSize)

def chunkArray {α : Type} (array : List α) (chunkSize : Nat) : List (List α) :=
  chunkArrayFuel chunkSize array.length array

/-- The entry one `instanceTypeInfo` contributes to `baselineBandwidths`:
the first network card's baseline bandwidth if present and truthy (a 0
value is falsy in JS and is skipped like an absent one), keyed by
`instanceTypeInfo.InstanceType` (an absent name would be the JS key
`"undefined"`), with the template value `` `${baselineBandwidth} Gbps` ``. -/
def bandwidthEntry (info : InstanceTypeInfo) : Option (String × String) :=
  match info.NetworkInfo with
  | none => none
  | some ni =>
    match ni.NetworkCards with
    | none => none
    | some [] => none
    | some (card :: _) =>
      match card.BaselineBandwidthInGbps with
      | none => none
      | some q =>
        if q = 0 then none
        else some (info.InstanceType.getD "undefined", toString q ++ " Gbps")

/-- The shared-map write for one `instanceTypeInfo` of a batch response. -/
def mergeInfo (acc2 : JsMap String) (info : InstanceTypeInfo) : JsMap String :=
  match bandwidthEntry info with
  | none => acc2
  | some (k, v) => jsSet acc2 k v

/-- One batch of the `Promise.all` fan-out: on success, fold the response's
`InstanceTypes` into the shared map; on failure (`catch`), log only and
contribute nothing. -/
def processBatch (send : List String → Except JsError DescribeResponse)
    (acc : JsMap String) (chunk : List String) : JsMap String :=
  match send chunk with
  | Except.error _ => acc
  | Except.ok resp =>
    match resp.InstanceTypes with
    | none => acc
    | some infos => infos.foldl mergeInfo acc

/-- Whether the singleton validation probe for one type succeeds. -/
def sendOk (send : List String → Except JsError DescribeResponse) (t : String) : Bool :=
  match send [t] with
  | Except.ok _ => true
  | Except.error _ => false

/-- The `validInstanceTypes` list: prefixes stripped, then the types whose
singleton probe succeeds. -/
def validTypes (send : List String → Except JsError DescribeResponse)
    (nodeTypes : List String) : List String :=
  (nodeTypes.map (fun t => replaceFirst (replaceFirst t "cache.") "db.")).filter
    (fun t => sendOk send t)

/-- `fetchBaselineBandwidth(nodeTypes, region)` from awsClient.ts (batched
revision): cache short-circuit, prefix stripping, per-type validation,
chunking into batches of 100, concurrent batches merged into one map with
per-batch error containment. -/
def fetchBaselineBandwidth (cached : Option (JsMap String))
    (send : List String → Except JsError DescribeResponse)
    (nodeTypes : List String) : JsMap String :=
  match cached with
  | some cachedData => cachedData
  | none =>
    (chunkArray (validTypes send nodeTypes) 100).foldl (processBatch send) jsEmpty

/-- `batchValue send chunk k v`: the batch `chunk` succeeds and one of its
response's instance-type infos contributes the entry `(k, v)`. -/
def batchValue (send : List String → Except JsError DescribeResponse)
    (chunk : List String) (k v : String) : Prop :=
  ∃ resp, send chunk = Except.ok resp ∧
    ∃ infos, resp.InstanceTypes = some infos ∧
      ∃ info ∈ infos, bandwidthEntry info = some (k, v)

theorem mergeInfos_mem (infos : List InstanceTypeInfo) (acc : JsMap String) (k : String) :
    jsGet (infos.foldl mergeInfo acc) k ≠ none ↔
      (jsGet acc k ≠ none ∨ ∃ info ∈ infos, ∃ v, bandwidthEntry info = some (k, v)) := by
  induction infos generalizing acc with
  | nil => simp
  | cons info rest ih =>
    simp only [List.foldl_cons]
    rw [ih (mergeInfo acc info)]
    match hbe : bandwidthEntry info with
    | none =>
      simp only [mergeInfo, hbe]
      constructor
      · rintro (hl | ⟨i, hi, v, hv⟩)
        · exact Or.inl hl
        · exact Or.inr ⟨i, List.mem_cons_of_mem _ hi, v, hv⟩
      · rintro (hl | ⟨i, hi, v, hv⟩)
        · exact Or.inl hl
        · rcases List.mem_cons.mp hi with heq | hi'
          · subst heq; rw [hbe] at hv; exact absurd hv (by simp)
          · exact Or.inr ⟨i, hi', v, hv⟩
    | some (k', v') =>
      simp only [mergeInfo, hbe]
      by_cases hkk : k = k'
      · subst hkk
        rw [jsGet_jsSet_self]
        constructor
        · intro _
          exact Or.inr ⟨info, List.mem_cons_self _ _, v', hbe⟩
        · intro _
          left
          simp
      · rw [jsGet_jsSet_ne acc k' k v' hkk]
        constructor
        · rintro (hl | ⟨i, hi, v, hv⟩)
          · exact Or.inl hl
          · exact Or.inr ⟨i, List.mem_cons_of_mem _ hi, v, hv⟩
        · rintro (hl | ⟨i, hi, v, hv⟩)
          · exact Or.inl hl
          · rcases List.mem_cons.mp hi with heq | hi'
            · subst heq
              rw [hbe] at hv
              injection hv with hv
              have : k' = k := congrArg Prod.fst hv
              exact absurd this.symm hkk
            · exact Or.inr ⟨i, hi', v, hv⟩

theorem mergeInfos_val (infos : List InstanceTypeInfo) (acc : JsMap String)
    (k v : String) (h : jsGet (infos.foldl mergeInfo acc) k = some v) :
    jsGet acc k = some v ∨ ∃ info ∈ infos, bandwidthEntry info = some (k, v) := by
  induction infos generalizing acc with
  | nil => exact Or.inl h
  | cons info rest ih =>
    simp only [List.foldl_cons] at h
    rcases ih (mergeInfo acc info) h with hacc | ⟨i, hi, hv⟩
    · match hbe : bandwidthEntry info with
      | none =>
        rw [mergeInfo, hbe] at hacc
        exact Or.inl hacc
      | some (k', v') =>
        rw [mergeInfo, hbe] at hacc
        by_cases hkk : k = k'
        · subst hkk
          rw [jsGet_jsSet_self] at hacc
          injection hacc with hacc
          exact Or.inr ⟨info, List.mem_cons_self _ _, by rw [hbe, hacc]⟩
        · rw [jsGet_jsSet_ne acc k' k v' hkk] at hacc
          exact Or.inl hacc
    · exact Or.inr ⟨i, List.mem_cons_of_mem _ hi, hv⟩

theorem processBatch_mem (send : List String → Except JsError DescribeResponse)
    (chunk : List String) (acc : JsMap String) (k : String) :
    jsGet (processBatch send acc chunk) k ≠ none ↔
      (jsGet acc k ≠ none ∨ ∃ v, batchValue send chunk k v) := by
  match hs : send chunk with
  | Except.error e =>
    simp only [processBatch, hs]
    constructor
    · exact Or.inl
    · rintro (hl | ⟨v, resp, hresp, _⟩)
      · exact hl
      · rw [hs] at hresp; exact absurd hresp (by simp)
  | Except.ok resp =>
    match hit : resp.InstanceTypes with
    | none =>
      simp only [processBatch, hs, hit]
      constructor
      · exact Or.inl
      · rintro (hl | ⟨v, resp', hresp, infos, hinfos, _⟩)
        · exact hl
        · rw [hs] at hresp
          injection hresp with hresp
          subst hresp
          rw [hit] at hinfos
          exact absurd hinfos (by simp)
    | some infos =>
      simp only [processBatch, hs, hit]
      rw [mergeInfos_mem infos acc k]
      constructor
      · rintro (hl | ⟨i, hi, v, hv⟩)
        · exact Or.inl hl
        · exact Or.inr ⟨v, resp, hs, infos, hit, i, hi, hv⟩
      · rintro (hl | ⟨v, resp', hresp, infos', hinfos, i, hi, hv⟩)
        · exact Or.inl hl
        · rw [hs] at hresp
          injection hresp with hresp
          subst hresp
          rw [hit] at hinfos
          injection hinfos with hinfos
          subst hinfos
          exact Or.inr ⟨i, hi, v, hv⟩

theorem processBatch_val (send : List String → Except JsError DescribeResponse)
    (chunk : List String) (acc : JsMap String) (k v : String)
    (h : jsGet (processBatch send acc chunk) k = some v) :
    jsGet acc k = some v ∨ batchValue send chunk k v := by
  match hs : send chunk with
  | Except.error e =>
    simp only [processBatch, hs] at h
    exact Or.inl h
  | Except.ok resp =>
    match hit : resp.InstanceTypes with
    | none =>
      simp only [processBatch, hs, hit] at h
      exact Or.inl h
    | some infos =>
      simp only [processBatch, hs, hit] at h
      rcases mergeInfos_val infos acc k v h with hacc | ⟨i, hi, hv⟩
      · exact Or.inl hacc
      · exact Or.inr ⟨resp, hs, infos, hit, i, hi, hv⟩

theorem batchesFold_mem (send : List String → Except JsError DescribeResponse)
    (chunks : List (List String)) :
    ∀ (acc : JsMap String) (k : String),
      jsGet (chunks.foldl (processBatch send) acc) k ≠ none ↔
        (jsGet acc k ≠ none ∨ ∃ c ∈ chunks, ∃ v, batchValue send c k v) := by
  induction chunks with
  | nil => intro acc k; simp
  | cons chunk rest ih =>
    intro acc k
    simp only [List.foldl_cons]
    rw [ih (processBatch send acc chunk) k, processBatch_mem send chunk acc k]
    constructor
    · rintro ((hl | ⟨v, hv⟩) | ⟨c, hc, v, hv⟩)
      · exact Or.inl hl
      · exact Or.inr ⟨chunk, List.mem_cons_self _ _, v, hv⟩
      · exact Or.inr ⟨c, List.mem_cons_of_mem _ hc, v, hv⟩
    · rintro (hl | ⟨c, hc, v, hv⟩)
      · exact Or.inl (Or.inl hl)
      · rcases List.mem_cons.mp hc with heq | hc'
        · subst heq; exact Or.inl (Or.inr ⟨v, hv⟩)
        · exact Or.inr ⟨c, hc', v, hv⟩

theorem batchesFold_val (send : List String → Except JsError DescribeResponse)
    (chunks : List (List String)) :
    ∀ (acc : JsMap String) (k v : String),
      jsGet (chunks.foldl (processBatch send) acc) k = some v →
        jsGet acc k = some v ∨ ∃ c ∈ chunks, batchValue send c k v := by
  induction chunks with
  | nil => intro acc k v h; exact Or.inl h
  | cons chunk rest ih =>
    intro acc k v h
    simp only [List.foldl_cons] at h
    rcases ih (processBatch send acc chunk) k v h with hacc | ⟨c, hc, hv⟩
    · rcases processBatch_val send chunk acc k v hacc with hacc' | hbv
      · exact Or.inl hacc'
      · exact Or.inr ⟨chunk, List.mem_cons_self _ _, hbv⟩
    · exact Or.inr ⟨c, List.mem_cons_of_mem _ hc, hv⟩

/-- C7: on a cache miss, the merged bandwidth map contains exactly the
entries contributed by the successful batches: a key is present iff some
batch of the partition both succeeds and contributes it, and every stored
value comes from an info of a successful batch's response.  A failing batch
cannot contribute (its `catch` only logs), and its failure does not abort
the sibling batches. -/
theorem c7_partial_batch_failure (send : List String → Except JsError DescribeResponse)
    (nodeTypes : List String) (k : String) :
    (jsGet (fetchBaselineBandwidth none send nodeTypes) k ≠ none ↔
      ∃ chunk ∈ chunkArray (validTypes send nodeTypes) 100, ∃ v,
        batchValue send chunk k v) ∧
    (∀ v, jsGet (fetchBaselineBandwidth none send nodeTypes) k = some v →
      ∃ chunk ∈ chunkArray (validTypes send nodeTypes) 100,
        batchValue send chunk k v) := by
  constructor
  · have := batchesFold_mem send (chunkArray (validTypes send nodeTypes) 100) jsEmpty k
    simp only [fetchBaselineBandwidth]
    rw [this]
    simp [jsEmpty, jsGet]
  · intro v h
    have h' : jsGet ((chunkArray (validTypes send nodeTypes) 100).foldl
        (processBatch send) jsEmpty) k = some v := h
    rcases batchesFold_val send (chunkArray (validTypes send nodeTypes) 100)
        jsEmpty k v h' with hacc | hres
    · exact absurd hacc (by simp [jsEmpty, jsGet])
    · exact hres

/-- A concrete describe-API oracle for the C7 witness: the batch containing
`"m5.large"` succeeds with one bandwidth-bearing info; any other batch
fails. -/
def c7Send : List String → Except JsError DescribeResponse := fun chunk =>
  if "m5.large" ∈ chunk then
    Except.ok
      { InstanceTypes := some
          [ { InstanceType := some "m5.large"
              NetworkInfo := some
                { NetworkCards := some [ { BaselineBandwidthInGbps := some 5 } ] } } ] }
  else Except.error ⟨"Error", "batch failed"⟩

theorem c7_partial_batch_failure_witness :
    jsGet (fetchBaselineBandwidth none c7Send ["cache.m5.large"]) "m5.large" ≠ none ∧
    ∃ chunk ∈ chunkArray (validTypes c7Send ["cache.m5.large"]) 100, ∃ v,
      batchValue c7Send chunk "m5.large" v :=
  ⟨by decide,
   (c7_partial_batch_failure c7Send ["cache.m5.large"] "m5.large").1.mp (by decide)⟩

/-- A valid record for the C6 witness page. -/
def c6ItemValid : PriceListItem :=
  mkValidItem "db.r6g.2xlarge" "InstanceUsage:db.r6g.2xlarge" "1.04"

/-- A record on the same page whose JSON lacks `terms.OnDemand`. -/
def c6ItemNoOD : PriceListItem :=
  PriceListItem.json
    { product := some
        { attributes := some
            { instanceType := some "db.r6g.4xlarge"
              usagetype := some "InstanceUsage:db.r6g.4xlarge"
              other := [] } }
      terms_OnDemand := none }

/-- The map the C6 witness fetch produces: only the valid record's key. -/
def c6Map : JsMap InstanceRecord :=
  [("db.r6g.2xlarge",
    { pricePerHour := parseFloatJs (some "1.04")
      attributes :=
        { instanceType := some "db.r6g.2xlarge"
          usagetype := some "InstanceUsage:db.r6g.2xlarge"
          other := [] } })]

theorem c6_no_ondemand_absent_witness :
    fetchInstanceData noAbort [[c6ItemValid, c6ItemNoOD]] = Except.ok c6Map ∧
    jsGet c6Map "db.r6g.4xlarge" = none ∧
    (∀ t, jsGet c6Map t ≠ none →
      ∃ page ∈ [[c6ItemValid, c6ItemNoOD]], ∃ it ∈ page, ∃ rec,
        processPriceItem it = Except.ok (some (t, rec))) :=
  ⟨rfl, by decide,
   (c6_no_ondemand_absent noAbort [[c6ItemValid, c6ItemNoOD]] c6Map rfl).2.1⟩
